import Mathlib

/-
  Verification of the diffdelta-js client (version 0.1.2: src/cursor.ts,
  src/client.ts, src/models.ts) against its natural-language specification.

  The embedding models JavaScript runtime values flowing through the client:
  JSON documents are the inductive `Json` (JavaScript `null` and `undefined`
  are conflated into `Json.null`; the client code never distinguishes them -
  both are falsy and both are nullish for the `??` operator).  The decoders in
  models.ts use unchecked TypeScript casts, so a field annotated `string` can
  hold any runtime value; decoded records therefore carry `Json` in every
  field produced by a cast, and only structure built by the decoder itself
  (bucket tags, item lists) is given a native Lean type.
-/

namespace DiffDelta

/-- JSON-like runtime values.  Objects are association lists of fields; keys
are assumed duplicate-free, as produced by `JSON.parse` (which keeps the last
occurrence of a duplicated key). -/
inductive Json where
  | null
  | bool (b : Bool)
  | num (n : Int)
  | str (s : String)
  | arr (elems : List Json)
  | obj (fields : List (String × Json))
deriving Repr, Inhabited

/-- Whether a runtime value is nullish (`null` or `undefined`): a property
read on such a value throws a `TypeError` in JavaScript. -/
def Json.isNull : Json → Bool
  | .null => true
  | _ => false

/-- JavaScript truthiness of a runtime value (`if (v)` / `v || d`).  Empty
arrays and empty objects are truthy. -/
def jsTruthy : Json → Bool
  | .null => false
  | .bool b => b
  | .num n => n != 0
  | .str s => s != ""
  | .arr _ => true
  | .obj _ => true

/-- The JavaScript `v || d` operator: the left operand when truthy, else `d`. -/
def jsOr (v d : Json) : Json := if jsTruthy v then v else d

/-- The JavaScript `v ?? d` operator: `d` exactly when `v` is nullish. -/
def jsNullish : Json → Json → Json
  | .null, d => d
  | v, _ => v

/-- First-match lookup in an association list (JavaScript property read on an
object whose keys are duplicate-free). -/
def lookupField : List (String × Json) → String → Option Json
  | [], _ => none
  | (k, v) :: rest, key => if k = key then some v else lookupField rest key

/-- JavaScript property read `v[key]` for a non-null base value: a missing
field, or a read on a primitive, yields `undefined` (modeled as `Json.null`).
Array reads support canonical numeric indices and `length`. -/
def jsGet (v : Json) (key : String) : Json :=
  match v with
  | .obj fields => (lookupField fields key).getD .null
  | .arr elems =>
      if key = "length" then .num elems.length
      else match key.toNat? with
        | some i => (elems.get? i).getD .null
        | none => .null
  | _ => .null

/-- JavaScript strict equality `===` as it applies in this client: structural
on primitives; `false` on arrays and objects, because every comparison the
client performs is between values originating from independent `JSON.parse`
calls, which never alias, and `===` on objects is reference equality. -/
def jsStrictEq : Json → Json → Bool
  | .null, .null => true
  | .bool a, .bool b => a == b
  | .num a, .num b => a == b
  | .str a, .str b => a == b
  | _, _ => false

/-- JavaScript `String(v)` conversion, used when a runtime value becomes a
property key (`tagMap[i.source]`, `Object.fromEntries`). -/
def jsToStr : Json → String
  | .null => "null"
  | .bool b => cond b "true" "false"
  | .num n => toString n
  | .str s => s
  | .arr elems => jsArrJoin elems
  | .obj _ => "[object Object]"
where
  /-- The `Array.prototype.toString` join: comma-separated, nullish elements print empty. -/
  jsArrJoin : List Json → String
  | [] => ""
  | [.null] => ""
  | [v] => jsToStr v
  | .null :: rest => "," ++ jsArrJoin rest
  | v :: rest => jsToStr v ++ "," ++ jsArrJoin rest

/-- JavaScript `toLowerCase`, modeled on the ASCII range (the only
characters dependency names use); non-letter characters pass through. -/
def lowerChar : Char → Char
  | 'A' => 'a' | 'B' => 'b' | 'C' => 'c' | 'D' => 'd' | 'E' => 'e'
  | 'F' => 'f' | 'G' => 'g' | 'H' => 'h' | 'I' => 'i' | 'J' => 'j'
  | 'K' => 'k' | 'L' => 'l' | 'M' => 'm' | 'N' => 'n' | 'O' => 'o'
  | 'P' => 'p' | 'Q' => 'q' | 'R' => 'r' | 'S' => 's' | 'T' => 't'
  | 'U' => 'u' | 'V' => 'v' | 'W' => 'w' | 'X' => 'x' | 'Y' => 'y'
  | 'Z' => 'z'
  | c => c

/-- The `dep.toLowerCase()` call applied characterwise. -/
def jsToLower (s : String) : String := String.mk (s.data.map lowerChar)

-- ── Payload decoder (models.ts) ──

/-- The change-bucket classification of a feed item. -/
inductive Bucket where
  | new
  | updated
  | removed
  | flagged
deriving Repr, Inhabited

/-- The JavaScript string carried in the `bucket` field of an item. -/
def Bucket.label : Bucket → String
  | .new => "new"
  | .updated => "updated"
  | .removed => "removed"
  | .flagged => "flagged"

/-- Decoded feed item (models.ts `FeedItem`).  Every field filled by an
unchecked cast keeps the runtime `Json` value. -/
structure FeedItem where
  source : Json
  id : Json
  headline : Json
  url : Json
  excerpt : Json
  publishedAt : Json
  updatedAt : Json
  bucket : Bucket
  signals : Json
  suggestedAction : Json
  riskScore : Json
  provenance : Json
  raw : Json
deriving Repr, Inhabited

/-- models.ts `parseFeedItem`.  Errors exactly where the JavaScript throws:
a property read on a `null` (or `undefined`) argument. -/
def parseFeedItem (data : Json) (bucket : Bucket) : Except String FeedItem :=
  if data.isNull then .error "TypeError: Cannot read properties of null" else
    let content := jsGet data "content"
    let excerpt : Json :=
      match content with
      | .obj _ => jsOr (jsGet content "excerpt_text")
          (jsOr (jsGet content "summary") (.str ""))
      | .arr _ => jsOr (jsGet content "excerpt_text")
          (jsOr (jsGet content "summary") (.str ""))
      | .str s => .str s
      | _ => .str ""
    let signals := jsOr (jsGet data "signals") (.obj [])
    let suggestedAction := jsOr (jsGet signals "suggested_action") .null
    let risk := jsGet data "risk"
    let riskFromObj : Json :=
      match risk with
      | .obj _ => jsNullish (jsGet risk "score") .null
      | .arr _ => jsNullish (jsGet risk "score") .null
      | _ => .null
    let riskScore : Json :=
      match riskFromObj with
      | .null => jsNullish (jsGet data "risk_score") .null
      | v => v
    .ok {
      source := jsOr (jsGet data "source") (.str "")
      id := jsOr (jsGet data "id") (.str "")
      headline := jsOr (jsGet data "headline") (.str "")
      url := jsOr (jsGet data "url") (.str "")
      excerpt := excerpt
      publishedAt := jsOr (jsGet data "published_at") .null
      updatedAt := jsOr (jsGet data "updated_at") .null
      bucket := bucket
      signals := signals
      suggestedAction := suggestedAction
      riskScore := riskScore
      provenance := jsOr (jsGet data "provenance") (.obj [])
      raw := data }

/-- Per-bucket item counts inside a decoded head. -/
structure HeadCounts where
  new : Json
  updated : Json
  removed : Json
  flagged : Json
deriving Repr, Inhabited

/-- Decoded head pointer (models.ts `Head`). -/
structure Head where
  cursor : Json
  changed : Json
  generatedAt : Json
  ttlSec : Json
  latestUrl : Json
  digestUrl : Json
  counts : HeadCounts
  sourcesChecked : Json
  sourcesOk : Json
  allClear : Json
  allClearConfidence : Json
  freshness : Json
  raw : Json
deriving Repr, Inhabited

/-- models.ts `parseHead`. -/
def parseHead (data : Json) : Except String Head :=
  if data.isNull then .error "TypeError: Cannot read properties of null" else
    let counts := jsOr (jsGet data "counts") (.obj [])
    .ok {
      cursor := jsOr (jsGet data "cursor") (.str "")
      changed := jsOr (jsGet data "changed") (.bool false)
      generatedAt := jsOr (jsGet data "generated_at") (.str "")
      ttlSec := jsOr (jsGet data "ttl_sec") (.num 60)
      latestUrl := jsOr (jsGet data "latest_url") (.str "")
      digestUrl := jsOr (jsGet data "digest_url") .null
      counts := {
        new := jsOr (jsGet counts "new") (.num 0)
        updated := jsOr (jsGet counts "updated") (.num 0)
        removed := jsOr (jsGet counts "removed") (.num 0)
        flagged := jsOr (jsGet counts "flagged") (.num 0) }
      sourcesChecked := jsOr (jsGet data "sources_checked") (.num 0)
      sourcesOk := jsOr (jsGet data "sources_ok") (.num 0)
      allClear := jsOr (jsGet data "all_clear") (.bool false)
      allClearConfidence := jsNullish (jsGet data "all_clear_confidence")
        (jsNullish (jsGet data "confidence") .null)
      freshness := jsOr (jsGet data "freshness") .null
      raw := data }

/-- Decoded feed (models.ts `Feed`). -/
structure Feed where
  cursor : Json
  prevCursor : Json
  sourceId : Json
  generatedAt : Json
  items : List FeedItem
  new : List FeedItem
  updated : List FeedItem
  removed : List FeedItem
  flagged : List FeedItem
  narrative : Json
  raw : Json
deriving Repr, Inhabited

/-- The JavaScript pattern `(v || []).map(...)`: a falsy value maps over the
empty array; a truthy non-array has no `.map` method and throws. -/
def arrayElems (v : Json) : Except String (List Json) :=
  if jsTruthy v then
    match v with
    | .arr xs => .ok xs
    | _ => .error "TypeError: map is not a function"
  else .ok []

/-- Decode one bucket array of raw items in order (the `.map(parseFeedItem)`
calls inside models.ts `parseFeed`); the first throwing element aborts. -/
def parseItems (xs : List Json) (b : Bucket) : Except String (List FeedItem) :=
  match xs with
  | [] => .ok []
  | x :: rest => do
    let i ← parseFeedItem x b
    let is ← parseItems rest b
    .ok (i :: is)

/-- The `const buckets = (data.buckets as ...) || ` line of `parseFeed`. -/
def feedBuckets (data : Json) : Json := jsOr (jsGet data "buckets") (.obj [])

/-- models.ts `parseFeed`. -/
def parseFeed (data : Json) : Except String Feed :=
  if data.isNull then .error "TypeError: Cannot read properties of null" else do
    let newRaw ← arrayElems (jsGet (feedBuckets data) "new")
    let newItems ← parseItems newRaw .new
    let updRaw ← arrayElems (jsGet (feedBuckets data) "updated")
    let updItems ← parseItems updRaw .updated
    let remRaw ← arrayElems (jsGet (feedBuckets data) "removed")
    let remItems ← parseItems remRaw .removed
    let flagRaw ← arrayElems (jsGet (feedBuckets data) "flagged")
    let flagItems ← parseItems flagRaw .flagged
    .ok {
      cursor := jsOr (jsGet data "cursor") (.str "")
      prevCursor := jsOr (jsGet data "prev_cursor") (.str "")
      sourceId := jsOr (jsGet data "source_id") (.str "")
      generatedAt := jsOr (jsGet data "generated_at") (.str "")
      items := newItems ++ updItems ++ remItems ++ flagItems
      new := newItems
      updated := updItems
      removed := remItems
      flagged := flagItems
      narrative := jsOr (jsGet data "batch_narrative") (.str "")
      raw := data }

/-- Decoded source metadata (models.ts `SourceInfo`). -/
structure SourceInfo where
  sourceId : Json
  name : Json
  tags : Json
  description : Json
  homepage : Json
  enabled : Json
  status : Json
  headUrl : Json
  latestUrl : Json
deriving Repr, Inhabited

/-- models.ts `parseSourceInfo`. -/
def parseSourceInfo (data : Json) : Except String SourceInfo :=
  if data.isNull then .error "TypeError: Cannot read properties of null" else
  .ok {
      sourceId := jsOr (jsGet data "source_id") (.str "")
      name := jsOr (jsGet data "name") (.str "")
      tags := jsOr (jsGet data "tags") (.arr [])
      description := jsOr (jsGet data "description") (.str "")
      homepage := jsOr (jsGet data "homepage") (.str "")
      enabled := jsNullish (jsGet data "enabled") (.bool true)
      status := jsOr (jsGet data "status") (.str "ok")
      headUrl := jsOr (jsGet data "head_url") (.str "")
      latestUrl := jsOr (jsGet data "latest_url") (.str "") }

/-- Decoded health check (models.ts `HealthCheck`). -/
structure HealthCheck where
  ok : Json
  service : Json
  time : Json
  sourcesChecked : Json
  sourcesOk : Json
  engineVersion : Json
deriving Repr, Inhabited

/-- models.ts `parseHealthCheck`. -/
def parseHealthCheck (data : Json) : Except String HealthCheck :=
  if data.isNull then .error "TypeError: Cannot read properties of null" else
  .ok {
      ok := jsOr (jsGet data "ok") (.bool false)
      service := jsOr (jsGet data "service") (.str "")
      time := jsOr (jsGet data "time") (.str "")
      sourcesChecked := jsOr (jsGet data "sources_checked") (.num 0)
      sourcesOk := jsOr (jsGet data "sources_ok") (.num 0)
      engineVersion := jsOr (jsGet data "engine_version") (.str "") }

-- ── Cursor store (cursor.ts) ──

/-- JavaScript property write `cursors[key] = v`: replace in place when the
key exists, append otherwise. -/
def setAssoc : List (String × Json) → String → Json → List (String × Json)
  | [], key, v => [(key, v)]
  | (k, w) :: rest, key, v =>
      if k = key then (key, v) :: rest else (k, w) :: setAssoc rest key v

/-- The possible states of the cursor file on disk when a `CursorStore` is
constructed: missing, unreadable (`readFileSync` throws), or readable with a
given `JSON.parse` outcome. -/
inductive DiskState where
  | absent
  | unreadable
  | contents (parse : Except Unit Json)

/-- The guard `typeof data === "object" && data !== null` in
`CursorStore.load`: JavaScript `typeof` reports `"object"` for plain objects,
for arrays, and for `null`, which the code excludes explicitly. -/
def isJsObjectLike : Json → Bool
  | .obj _ => true
  | .arr _ => true
  | _ => false

/-- The key/value entries of a value accepted by the `typeof` guard.  An
array is kept as the store object, its indices becoming the keys (exotic own
properties of arrays, such as `length`, do not collide with any feed key
and are not modeled). -/
def storeEntries : Json → List (String × Json)
  | .obj fields => fields
  | .arr elems => elems.enum.map (fun p => (toString p.1, p.2))
  | _ => []

/-- cursor.ts `CursorStore.load`, mapping each on-disk state to the in-memory
cursor map the constructor ends up with.  Every failure path lands in the
`catch` block (start fresh); a total function, so construction never
throws. -/
def loadCursors : DiskState → List (String × Json)
  | .absent => []
  | .unreadable => []
  | .contents (.error _) => []
  | .contents (.ok v) => if isJsObjectLike v then storeEntries v else []

/-- cursor.ts `CursorStore.save`: any write failure is swallowed by the
`catch` block, so no error ever surfaces to the caller.  The argument records
whether the underlying filesystem write would succeed. -/
def saveSurfacedError (writeOk : Bool) : Option String :=
  match writeOk with
  | true => none
  | false => none

/-- cursor.ts `CursorStore.set`: update the in-memory map, then persist;
returns the new map and the error surfaced to the caller (always none). -/
def cursorStoreSet (cursors : List (String × Json)) (key : String)
    (cursor : Json) (writeOk : Bool) : List (String × Json) × Option String :=
  (setAssoc cursors key cursor, saveSurfacedError writeOk)

-- ── Client (client.ts) ──

/-- The transport boundary: each URL either yields a parsed JSON body or a
transport failure (network error, timeout, non-2xx status). -/
structure Network where
  fetch : String → Except String Json

/-- The mutable state of one `DiffDelta` instance: the cursor store contents
and the lazily-populated source-tags cache. -/
structure ClientState where
  cursors : List (String × Json)
  sourceTagsCache : Option (List (String × Json))

/-- The `/diff/sources.json` URL for a base URL. -/
def sourcesUrl (baseUrl : String) : String := baseUrl ++ "/diff/sources.json"

/-- Decode the elements of `sources.json` in order (`raw.map(parseSourceInfo)`
inside `DiffDelta.sources`); the first throwing element aborts. -/
def parseSourceList (xs : List Json) : Except String (List SourceInfo) :=
  match xs with
  | [] => .ok []
  | x :: rest => do
    let s ← parseSourceInfo x
    let ss ← parseSourceList rest
    .ok (s :: ss)

/-- client.ts `DiffDelta.sources`: fetch `/diff/sources.json` and decode
`(data.sources || []).map(parseSourceInfo)`. -/
def sourcesCall (net : Network) (baseUrl : String) :
    Except String (List SourceInfo) := do
  let data ← net.fetch (sourcesUrl baseUrl)
  let raw ← if data.isNull then .error "TypeError: Cannot read properties of null"
    else arrayElems (jsGet data "sources")
  parseSourceList raw

/-- The `Object.fromEntries` construction: later entries overwrite earlier ones. -/
def fromEntries (pairs : List (String × Json)) : List (String × Json) :=
  pairs.foldl (fun acc p => setAssoc acc p.1 p.2) []

/-- client.ts `DiffDelta.getSourceTags`: a cache hit returns the cached map;
otherwise fetch and decode the source list (one request, returned in the log
component), building sourceId-to-tags entries; any failure is caught and the
cache becomes the empty map.  Never throws. -/
def getSourceTags (net : Network) (baseUrl : String) (st : ClientState) :
    List (String × Json) × ClientState × List String :=
  match st.sourceTagsCache with
  | some m => (m, st, [])
  | none =>
    let m := match sourcesCall net baseUrl with
      | .ok srcs => fromEntries (srcs.map (fun s => (jsToStr s.sourceId, s.tags)))
      | .error _ => []
    (m, { st with sourceTagsCache := some m }, [sourcesUrl baseUrl])

/-- Whether the second character list occurs at the head of the first. -/
def charsStartWith : List Char → List Char → Bool
  | _, [] => true
  | [], _ :: _ => false
  | a :: as, b :: bs => a == b && charsStartWith as bs

/-- Whether the second character list occurs contiguously anywhere in the
first. -/
def charsContain : List Char → List Char → Bool
  | [], t => charsStartWith [] t
  | c :: cs, t => charsStartWith (c :: cs) t || charsContain cs t

/-- JavaScript `String.prototype.includes`: substring containment (the
empty string is contained in every string). -/
def jsIncludes (s t : String) : Bool := charsContain s.data t.data

/-- The tag-filter predicate inside `pollFeed`:
`(tagMap[i.source] || []).includes` on each requested tag.  An array tag
entry uses SameValueZero membership; a string tag entry uses
`String.prototype.includes`, which is substring search, not tag-list
membership; any other truthy tag entry (number, boolean, plain object)
has no `.includes` method and throws (but `[].some` never invokes its
callback). -/
def tagFilterPred (tagMap : List (String × Json)) (tags : List String)
    (i : FeedItem) : Except String Bool :=
  let itemTags := jsOr ((lookupField tagMap (jsToStr i.source)).getD .null) (.arr [])
  match tags with
  | [] => .ok false
  | _ =>
    match itemTags with
    | .arr xs => .ok (tags.any (fun t => xs.any (fun x => jsStrictEq x (.str t))))
    | .str s => .ok (tags.any (fun t => jsIncludes s t))
    | _ => .error "TypeError: includes is not a function"

/-- The `Array.prototype.filter` loop with a predicate that can throw: elements are
tested in order and the first failure aborts. -/
def filterExcept (p : FeedItem → Except String Bool) :
    List FeedItem → Except String (List FeedItem)
  | [] => .ok []
  | x :: xs => do
    let b ← p x
    let rest ← filterExcept p xs
    .ok (if b then x :: rest else rest)

/-- The condition of the unchanged-cursor fast path in `pollFeed`:
`storedCursor && storedCursor === head.cursor`. -/
def cursorUnchanged (storedCursor headCursor : Json) : Bool :=
  jsTruthy storedCursor && jsStrictEq storedCursor headCursor

/-- The parameter record of client.ts `DiffDelta.pollFeed`. -/
structure PollParams where
  headUrl : String
  latestUrl : String
  cursorKey : String
  tags : Option (List String)
  sources : Option (List String)
  buckets : List String

/-- The bucket filter of `pollFeed` step 5:
`items.filter((i) => buckets.includes(i.bucket))`. -/
def bucketFiltered (p : PollParams) (feed : Feed) : List FeedItem :=
  feed.items.filter (fun i => p.buckets.contains i.bucket.label)

/-- The source filter of `pollFeed` step 5, applied only when
`sources?.length` is truthy: `sources.includes(i.source)`. -/
def sourceFiltered (p : PollParams) (items : List FeedItem) : List FeedItem :=
  match p.sources with
  | none => items
  | some ss =>
      if ss.isEmpty then items
      else items.filter (fun i => ss.any (fun s => jsStrictEq i.source (.str s)))

/-- Step 5 of client.ts `DiffDelta.pollFeed`: bucket filter, then source
filter, then tag filter (skipped when `tags?.length` is falsy; otherwise
resolves the source-tags map once, whose fetch is recorded in the returned
log). -/
def filterStep (net : Network) (baseUrl : String) (st : ClientState)
    (p : PollParams) (feed : Feed) :
    Except String (List FeedItem) × ClientState × List String :=
  match p.tags with
  | none => (.ok (sourceFiltered p (bucketFiltered p feed)), st, [])
  | some ts =>
      if ts.isEmpty then (.ok (sourceFiltered p (bucketFiltered p feed)), st, [])
      else
        match filterExcept (tagFilterPred (getSourceTags net baseUrl st).1 ts)
            (sourceFiltered p (bucketFiltered p feed)) with
        | .ok items2 =>
            (.ok items2, (getSourceTags net baseUrl st).2.1,
              (getSourceTags net baseUrl st).2.2)
        | .error e =>
            (.error e, (getSourceTags net baseUrl st).2.1,
              (getSourceTags net baseUrl st).2.2)

/-- client.ts `DiffDelta.pollFeed`.  Returns the outcome (items or the
propagated failure), the client state after the call (cursor writes persist
even when a later step throws), and the list of URLs requested, in order. -/
def pollFeed (net : Network) (baseUrl : String) (st : ClientState)
    (p : PollParams) :
    Except String (List FeedItem) × ClientState × List String :=
  -- Step 1: fetch head.json
  match net.fetch p.headUrl with
  | .error e => (.error e, st, [p.headUrl])
  | .ok headData =>
    match parseHead headData with
    | .error e => (.error e, st, [p.headUrl])
    | .ok head =>
      -- Step 2: compare cursor; if unchanged, nothing to do
      let storedCursor := (lookupField st.cursors p.cursorKey).getD .null
      if cursorUnchanged storedCursor head.cursor then
        (.ok [], st, [p.headUrl])
      else
        -- Step 3: fetch full feed
        match net.fetch p.latestUrl with
        | .error e => (.error e, st, [p.headUrl, p.latestUrl])
        | .ok feedData =>
          match parseFeed feedData with
          | .error e => (.error e, st, [p.headUrl, p.latestUrl])
          | .ok feed =>
            -- Step 4: save new cursor
            let st1 :=
              if jsTruthy feed.cursor then
                { st with cursors := setAssoc st.cursors p.cursorKey feed.cursor }
              else st
            -- Step 5: filter and return
            let r := filterStep net baseUrl st1 p feed
            (r.1, r.2.1, [p.headUrl, p.latestUrl] ++ r.2.2)

/-- The caller-facing options of `DiffDelta.poll` (client.ts `PollOptions`);
`none` models an omitted option. -/
structure PollOptions where
  tags : Option (List String) := none
  sources : Option (List String) := none
  buckets : Option (List String) := none

/-- The destructuring default in `DiffDelta.poll` and `DiffDelta.pollSource`:
`buckets = ["new", "updated", "flagged"]`. -/
def defaultBuckets : List String := ["new", "updated", "flagged"]

/-- client.ts `DiffDelta.poll`: the global-feed instantiation of
`pollFeed`. -/
def poll (net : Network) (baseUrl : String) (st : ClientState)
    (opts : PollOptions) :
    Except String (List FeedItem) × ClientState × List String :=
  pollFeed net baseUrl st {
    headUrl := baseUrl ++ "/diff/head.json"
    latestUrl := baseUrl ++ "/diff/latest.json"
    cursorKey := "global"
    tags := opts.tags
    sources := opts.sources
    buckets := opts.buckets.getD defaultBuckets }

-- ── Discovery (client.ts DiffDelta.discoverSources) ──

/-- The `Set.add` insertion on the result set: JavaScript sets use SameValueZero, so a
structurally repeated primitive collapses while object elements (distinct
references from one `JSON.parse`) do not; insertion order is kept. -/
def setAdd (acc : List Json) (x : Json) : List Json :=
  if acc.any (fun y => jsStrictEq y x) then acc else acc ++ [x]

/-- The inner loop `if (Array.isArray(sources)) for (const s of sources)
sourceIds.add(s)`. -/
def addEntrySources (acc : List Json) (sources : Json) : List Json :=
  match sources with
  | .arr xs => xs.foldl setAdd acc
  | _ => acc

/-- The dependency loop of `discoverSources`: look each name up after
lowercasing, skip falsy entries, accept either the legacy array shape or the
modern `entry.sources` shape. -/
def collectSourceIds (depsObj : Json) : List String → List Json → List Json
  | [], acc => acc
  | dep :: rest, acc =>
      let entry := jsGet depsObj (jsToLower dep)
      if jsTruthy entry then
        let sources := match entry with
          | .arr _ => entry
          | _ => jsGet entry "sources"
        collectSourceIds depsObj rest (addEntrySources acc sources)
      else collectSourceIds depsObj rest acc

/-- client.ts `DiffDelta.discoverSources`: fetch `/diff/stacks.json` once,
normalize `data.dependencies || data.dependency_map || ` to the lookup
object, and union all mapped source ids into one insertion-ordered
duplicate-free list. -/
def discoverSources (net : Network) (baseUrl : String) (deps : List String) :
    Except String (List Json) := do
  let data ← net.fetch (baseUrl ++ "/diff/stacks.json")
  let depsObj ← if data.isNull then .error "TypeError: Cannot read properties of null"
    else .ok (jsOr (jsGet data "dependencies")
      (jsOr (jsGet data "dependency_map") (.obj [])))
  .ok (collectSourceIds depsObj deps [])

-- ── Concrete instances used by the claim theorems ──

/-- The record `parseHead` produces for the empty document. -/
def emptyHead : Head :=
  { cursor := .str "", changed := .bool false, generatedAt := .str "",
    ttlSec := .num 60, latestUrl := .str "", digestUrl := .null,
    counts := ⟨.num 0, .num 0, .num 0, .num 0⟩,
    sourcesChecked := .num 0, sourcesOk := .num 0, allClear := .bool false,
    allClearConfidence := .null, freshness := .null, raw := .obj [] }

/-- The record `parseFeed` produces for the empty document. -/
def emptyFeed : Feed :=
  { cursor := .str "", prevCursor := .str "", sourceId := .str "",
    generatedAt := .str "", items := [], new := [], updated := [],
    removed := [], flagged := [], narrative := .str "", raw := .obj [] }

/-- The record `parseFeedItem` produces for the empty document (with the
default bucket argument `new`). -/
def emptyItem : FeedItem :=
  { source := .str "", id := .str "", headline := .str "", url := .str "",
    excerpt := .str "", publishedAt := .null, updatedAt := .null,
    bucket := .new, signals := .obj [], suggestedAction := .null,
    riskScore := .null, provenance := .obj [], raw := .obj [] }

/-- The record `parseSourceInfo` produces for the empty document. -/
def emptySourceInfo : SourceInfo :=
  { sourceId := .str "", name := .str "", tags := .arr [],
    description := .str "", homepage := .str "", enabled := .bool true,
    status := .str "ok", headUrl := .str "", latestUrl := .str "" }

/-- The record `parseHealthCheck` produces for the empty document. -/
def emptyHealthCheck : HealthCheck :=
  { ok := .bool false, service := .str "", time := .str "",
    sourcesChecked := .num 0, sourcesOk := .num 0, engineVersion := .str "" }

/-- A feed document with one single-field item per bucket. -/
def bucketScenarioDoc : Json := .obj [("buckets", .obj [
  ("new", .arr [.obj [("id", .str "A")]]),
  ("updated", .arr [.obj [("id", .str "B")]]),
  ("removed", .arr [.obj [("id", .str "C")]]),
  ("flagged", .arr [.obj [("id", .str "D")]])])]

/-- The item decoded from the one-field document with the given id. -/
def idOnlyItem (i : String) (b : Bucket) : FeedItem :=
  { source := .str "", id := .str i, headline := .str "", url := .str "",
    excerpt := .str "", publishedAt := .null, updatedAt := .null,
    bucket := b, signals := .obj [], suggestedAction := .null,
    riskScore := .null, provenance := .obj [],
    raw := .obj [("id", .str i)] }

/-- The feed decoded from `bucketScenarioDoc`. -/
def bucketScenarioFeed : Feed :=
  { cursor := .str "", prevCursor := .str "", sourceId := .str "",
    generatedAt := .str "",
    items := [idOnlyItem "A" .new, idOnlyItem "B" .updated,
      idOnlyItem "C" .removed, idOnlyItem "D" .flagged],
    new := [idOnlyItem "A" .new], updated := [idOnlyItem "B" .updated],
    removed := [idOnlyItem "C" .removed], flagged := [idOnlyItem "D" .flagged],
    narrative := .str "", raw := bucketScenarioDoc }

/-- A feed document whose `buckets.new` field is a truthy non-array: the
decoder calls `.map` on it and throws. -/
def badBucketsDoc : Json := .obj [("buckets", .obj [("new", .num 5)])]

/-- An item document whose `signals.suggested_action` is present but falsy
(the empty string). -/
def falsyActionDoc : Json :=
  .obj [("signals", .obj [("suggested_action", .str "")])]

/-- An item document with a real suggested action code. -/
def actionDoc : Json :=
  .obj [("signals", .obj [("suggested_action", .str "PATCH_IMMEDIATELY")])]

/-- The item decoded from `actionDoc`. -/
def actionItem : FeedItem :=
  { source := .str "", id := .str "", headline := .str "", url := .str "",
    excerpt := .str "", publishedAt := .null, updatedAt := .null,
    bucket := .new,
    signals := .obj [("suggested_action", .str "PATCH_IMMEDIATELY")],
    suggestedAction := .str "PATCH_IMMEDIATELY", riskScore := .null,
    provenance := .obj [], raw := actionDoc }

/-- The default base URL of the client. -/
def demoBase : String := "https://diffdelta.io"

/-- A head document carrying cursor c1. -/
def headDemoDoc : Json := .obj [("cursor", .str "c1")]

/-- A feed document carrying cursor c2 and one item per bucket; the item in
the new bucket has source sx. -/
def feedDemoDoc : Json := .obj [("cursor", .str "c2"), ("buckets", .obj [
  ("new", .arr [.obj [("id", .str "A"), ("source", .str "sx")]]),
  ("updated", .arr [.obj [("id", .str "B")]]),
  ("removed", .arr [.obj [("id", .str "C")]]),
  ("flagged", .arr [.obj [("id", .str "D")]])])]

/-- A sources document: one source sx tagged security. -/
def sourcesDemoDoc : Json := .obj [("sources", .arr [
  .obj [("source_id", .str "sx"), ("tags", .arr [.str "security"])]])]

/-- A server serving the three demo documents. -/
def demoNet : Network := ⟨fun u =>
  if u = "https://diffdelta.io/diff/head.json" then .ok headDemoDoc
  else if u = "https://diffdelta.io/diff/latest.json" then .ok feedDemoDoc
  else if u = "https://diffdelta.io/diff/sources.json" then .ok sourcesDemoDoc
  else .error "HTTP 404"⟩

/-- A server whose head document is empty (so its cursor decodes to the
empty string) and whose feed is the demo feed. -/
def noCursorNet : Network := ⟨fun u =>
  if u = "https://diffdelta.io/diff/head.json" then .ok (.obj [])
  else if u = "https://diffdelta.io/diff/latest.json" then .ok feedDemoDoc
  else .error "HTTP 404"⟩

/-- The global-feed poll parameters with all defaults. -/
def demoParams : PollParams :=
  { headUrl := "https://diffdelta.io/diff/head.json"
    latestUrl := "https://diffdelta.io/diff/latest.json"
    cursorKey := "global"
    tags := none
    sources := none
    buckets := defaultBuckets }

/-- The global-feed poll parameters with the tag filter [security]. -/
def securityParams : PollParams :=
  { demoParams with tags := some ["security"] }

/-- The head decoded from `headDemoDoc`. -/
def demoHead : Head := { emptyHead with cursor := .str "c1", raw := headDemoDoc }

/-- The item decoded from the new bucket of `feedDemoDoc`. -/
def itemA : FeedItem :=
  { source := .str "sx", id := .str "A", headline := .str "", url := .str "",
    excerpt := .str "", publishedAt := .null, updatedAt := .null,
    bucket := .new, signals := .obj [], suggestedAction := .null,
    riskScore := .null, provenance := .obj [],
    raw := .obj [("id", .str "A"), ("source", .str "sx")] }

/-- The feed decoded from `feedDemoDoc`. -/
def demoFeed : Feed :=
  { cursor := .str "c2", prevCursor := .str "", sourceId := .str "",
    generatedAt := .str "",
    items := [itemA, idOnlyItem "B" .updated, idOnlyItem "C" .removed,
      idOnlyItem "D" .flagged],
    new := [itemA], updated := [idOnlyItem "B" .updated],
    removed := [idOnlyItem "C" .removed], flagged := [idOnlyItem "D" .flagged],
    narrative := .str "", raw := feedDemoDoc }

/-- A client state with no stored cursors and a cold tag cache. -/
def freshState : ClientState := ⟨[], none⟩

/-- A client state whose stored global cursor matches `headDemoDoc`. -/
def matchedState : ClientState := ⟨[("global", .str "c1")], none⟩

/-- A client state whose stored global cursor is the empty string. -/
def emptyCursorState : ClientState := ⟨[("global", .str "")], none⟩

/-- The client state after a tag-filtered poll of the demo server: the feed
cursor is stored and the source-tags cache holds the sx entry. -/
def taggedState : ClientState :=
  ⟨[("global", .str "c2")], some [("sx", .arr [.str "security"])]⟩

/-- A sources document whose tags field is the string insecurity rather
than an array: `parseSourceInfo` keeps any truthy tags value. -/
def stringTagsDoc : Json := .obj [("sources", .arr [
  .obj [("source_id", .str "sx"), ("tags", .str "insecurity")]])]

/-- A server like `demoNet`, except that tags of source sx resolve to the
string insecurity. -/
def stringTagsNet : Network := ⟨fun u =>
  if u = "https://diffdelta.io/diff/head.json" then .ok headDemoDoc
  else if u = "https://diffdelta.io/diff/latest.json" then .ok feedDemoDoc
  else if u = "https://diffdelta.io/diff/sources.json" then .ok stringTagsDoc
  else .error "HTTP 404"⟩

/-- The stacks document in the modern object-valued shape. -/
def stacksModernDoc : Json := .obj [("dependencies", .obj [
  ("openai", .obj [("sources", .arr [.str "s1", .str "s2"])]),
  ("langchain", .obj [("sources", .arr [.str "s2", .str "s3"])])])]

/-- The stacks document in the legacy array-valued shape. -/
def stacksLegacyDoc : Json := .obj [("dependency_map", .obj [
  ("openai", .arr [.str "s1", .str "s2"]),
  ("langchain", .arr [.str "s2", .str "s3"])])]

/-- A server serving the modern stacks document. -/
def stacksNetModern : Network := ⟨fun u =>
  if u = "https://diffdelta.io/diff/stacks.json" then .ok stacksModernDoc
  else .error "HTTP 404"⟩

/-- A server serving the legacy stacks document. -/
def stacksNetLegacy : Network := ⟨fun u =>
  if u = "https://diffdelta.io/diff/stacks.json" then .ok stacksLegacyDoc
  else .error "HTTP 404"⟩

-- ── Helper lemmas ──

theorem jsOr_pos {v d : Json} (h : jsTruthy v = true) : jsOr v d = v := by
  simp [jsOr, h]

theorem jsOr_neg {v d : Json} (h : jsTruthy v = false) : jsOr v d = d := by
  simp [jsOr, h]

theorem parseFeedItem_bucket {d : Json} {b : Bucket} {i : FeedItem}
    (h : parseFeedItem d b = .ok i) : i.bucket = b := by
  unfold parseFeedItem at h
  split at h
  · cases h
  · simp only [Except.ok.injEq] at h
    subst h
    rfl

theorem parseItems_bucket {xs : List Json} {b : Bucket} {l : List FeedItem}
    (h : parseItems xs b = .ok l) : ∀ i ∈ l, i.bucket = b := by
  induction xs generalizing l with
  | nil =>
    unfold parseItems at h
    simp only [Except.ok.injEq] at h
    subst h
    intro i hi
    cases hi
  | cons x rest ih =>
    unfold parseItems at h
    rcases h1 : parseFeedItem x b with e | i0 <;> rw [h1] at h
    · cases h
    · rcases h2 : parseItems rest b with e | l0 <;> rw [h2] at h
      · cases h
      · simp only [bind, Except.bind, Except.ok.injEq] at h
        subst h
        intro i hi
        rcases List.mem_cons.mp hi with rfl | hmem
        · exact parseFeedItem_bucket h1
        · exact ih h2 i hmem

/-- Inversion of a successful `parseFeed`: the combined list is the
concatenation of the four bucket lists, each decoded by `parseItems` with
its own bucket tag. -/
theorem parseFeed_shape {data : Json} {feed : Feed}
    (h : parseFeed data = .ok feed) :
    feed.items = feed.new ++ feed.updated ++ feed.removed ++ feed.flagged ∧
    (∃ r, parseItems r .new = .ok feed.new) ∧
    (∃ r, parseItems r .updated = .ok feed.updated) ∧
    (∃ r, parseItems r .removed = .ok feed.removed) ∧
    (∃ r, parseItems r .flagged = .ok feed.flagged) := by
  unfold parseFeed at h
  split at h
  · cases h
  · rcases h1 : arrayElems (jsGet (feedBuckets data) "new") with e | nR <;>
      rw [h1] at h <;> simp only [bind, Except.bind] at h
    · cases h
    rcases h2 : parseItems nR .new with e | nI <;>
      rw [h2] at h <;> simp only [bind, Except.bind] at h
    · cases h
    rcases h3 : arrayElems (jsGet (feedBuckets data) "updated") with e | uR <;>
      rw [h3] at h <;> simp only [bind, Except.bind] at h
    · cases h
    rcases h4 : parseItems uR .updated with e | uI <;>
      rw [h4] at h <;> simp only [bind, Except.bind] at h
    · cases h
    rcases h5 : arrayElems (jsGet (feedBuckets data) "removed") with e | rR <;>
      rw [h5] at h <;> simp only [bind, Except.bind] at h
    · cases h
    rcases h6 : parseItems rR .removed with e | rI <;>
      rw [h6] at h <;> simp only [bind, Except.bind] at h
    · cases h
    rcases h7 : arrayElems (jsGet (feedBuckets data) "flagged") with e | fR <;>
      rw [h7] at h <;> simp only [bind, Except.bind] at h
    · cases h
    rcases h8 : parseItems fR .flagged with e | fI <;>
      rw [h8] at h <;> simp only [bind, Except.bind] at h
    · cases h
    simp only [Except.ok.injEq] at h
    subst h
    exact ⟨rfl, ⟨nR, h2⟩, ⟨uR, h4⟩, ⟨rR, h6⟩, ⟨fR, h8⟩⟩

theorem parseFeedItem_total {x : Json} {b : Bucket} (hx : x.isNull = false) :
    ∃ i, parseFeedItem x b = .ok i := by
  unfold parseFeedItem
  rw [hx]
  simp only [Bool.false_eq_true, if_false]
  exact ⟨_, rfl⟩

theorem parseItems_total {xs : List Json} {b : Bucket}
    (h : ∀ x ∈ xs, x.isNull = false) : ∃ l, parseItems xs b = .ok l := by
  induction xs with
  | nil => exact ⟨[], rfl⟩
  | cons x rest ih =>
    obtain ⟨l, hl⟩ := ih (fun y hy => h y (List.mem_cons_of_mem x hy))
    obtain ⟨i, hi⟩ := parseFeedItem_total (b := b) (h x (List.mem_cons_self x rest))
    refine ⟨i :: l, ?_⟩
    unfold parseItems
    rw [hi]
    simp only [bind, Except.bind]
    rw [hl]

theorem filterExcept_mem {p : FeedItem → Except String Bool}
    {xs r : List FeedItem} (h : filterExcept p xs = .ok r) :
    ∀ x ∈ r, x ∈ xs ∧ p x = .ok true := by
  induction xs generalizing r with
  | nil =>
    unfold filterExcept at h
    simp only [Except.ok.injEq] at h
    subst h
    intro x hx
    cases hx
  | cons y ys ih =>
    unfold filterExcept at h
    rcases h1 : p y with e | b <;> rw [h1] at h <;>
      simp only [bind, Except.bind] at h
    · cases h
    rcases h2 : filterExcept p ys with e | rest <;> rw [h2] at h <;>
      simp only [bind, Except.bind] at h
    · cases h
    simp only [Except.ok.injEq] at h
    subst h
    intro x hx
    cases b with
    | true =>
      rw [if_pos rfl] at hx
      rcases List.mem_cons.mp hx with rfl | hmem
      · exact ⟨List.mem_cons_self x ys, h1⟩
      · obtain ⟨hm, hp⟩ := ih h2 x hmem
        exact ⟨List.mem_cons_of_mem y hm, hp⟩
    | false =>
      rw [if_neg (by simp)] at hx
      obtain ⟨hm, hp⟩ := ih h2 x hx
      exact ⟨List.mem_cons_of_mem y hm, hp⟩

theorem getSourceTags_cache (net : Network) (baseUrl : String)
    (st : ClientState) :
    (getSourceTags net baseUrl st).2.1.sourceTagsCache =
      some (getSourceTags net baseUrl st).1 := by
  unfold getSourceTags
  cases h : st.sourceTagsCache <;> simp [h]

theorem getSourceTags_cursors (net : Network) (baseUrl : String)
    (st : ClientState) :
    (getSourceTags net baseUrl st).2.1.cursors = st.cursors := by
  unfold getSourceTags
  cases h : st.sourceTagsCache <;> simp [h]

/-- Inversion of a successful tag-filter test: the item source is present
in the tag map, and its resolved entry either is an array sharing a member
with the requested tags, or is a string containing some requested tag as a
substring (the JavaScript `String.prototype.includes` reading). -/
theorem tagFilterPred_true {m : List (String × Json)} {ts : List String}
    {i : FeedItem} (hts : ts ≠ []) (h : tagFilterPred m ts i = .ok true) :
    (lookupField m (jsToStr i.source)).isSome = true ∧
    ((∃ xs, jsOr ((lookupField m (jsToStr i.source)).getD .null) (.arr []) = .arr xs ∧
        ts.any (fun t => xs.any (fun x => jsStrictEq x (.str t))) = true) ∨
     (∃ s, jsOr ((lookupField m (jsToStr i.source)).getD .null) (.arr []) = .str s ∧
        ts.any (fun t => jsIncludes s t) = true)) := by
  unfold tagFilterPred at h
  cases ts with
  | nil => exact absurd rfl hts
  | cons t ts' =>
    rcases he : jsOr ((lookupField m (jsToStr i.source)).getD .null) (.arr [])
      with _ | _ | _ | sv | xs | _ <;> rw [he] at h <;> try cases h
    · have hany : (t :: ts').any (fun tt => jsIncludes sv tt) = true := by
        simpa using h
      refine ⟨?_, Or.inr ⟨sv, rfl, hany⟩⟩
      rcases hl : lookupField m (jsToStr i.source) with _ | v
      · exfalso
        rw [hl] at he
        simp only [Option.getD] at he
        simp [jsOr, jsTruthy] at he
      · rfl
    · have hany : (t :: ts').any
          (fun tt => xs.any (fun x => jsStrictEq x (.str tt))) = true := by
        simpa using h
      refine ⟨?_, Or.inl ⟨xs, rfl, hany⟩⟩
      rcases hl : lookupField m (jsToStr i.source) with _ | v
      · exfalso
        rw [hl] at he
        simp only [Option.getD] at he
        have hx : Json.arr [] = Json.arr xs := by
          simpa [jsOr, jsTruthy] using he
        have hxs : xs = [] := by
          injection hx with hh
          exact hh.symm
        subst hxs
        simp at hany
      · rfl

theorem bucketFiltered_mem {p : PollParams} {feed : Feed} :
    ∀ i ∈ bucketFiltered p feed,
      i ∈ feed.items ∧ p.buckets.contains i.bucket.label = true := by
  intro i hi
  exact ⟨(List.mem_filter.mp hi).1, (List.mem_filter.mp hi).2⟩

theorem sourceFiltered_sub {p : PollParams} {items : List FeedItem} :
    ∀ i ∈ sourceFiltered p items, i ∈ items := by
  intro i hi
  unfold sourceFiltered at hi
  split at hi
  · exact hi
  · split at hi
    · exact hi
    · exact (List.mem_filter.mp hi).1

/-- Inversion of a successful `filterStep`: the state keeps its cursors, the
returned items come from the feed and pass the bucket filter, and under a
non-empty tag filter the state holds the resolved tag map and every item
passes the tag predicate. -/
theorem filterStep_inversion {net : Network} {baseUrl : String}
    {st : ClientState} {p : PollParams} {feed : Feed}
    {items : List FeedItem} {st' : ClientState} {lg : List String}
    (h : filterStep net baseUrl st p feed = (.ok items, st', lg)) :
    st'.cursors = st.cursors ∧
    (∀ i ∈ items, i ∈ feed.items ∧ p.buckets.contains i.bucket.label = true) ∧
    (∀ ts, p.tags = some ts → ts ≠ [] →
      st' = (getSourceTags net baseUrl st).2.1 ∧
      ∀ i ∈ items, tagFilterPred (getSourceTags net baseUrl st).1 ts i = .ok true) := by
  unfold filterStep at h
  split at h
  case _ htags =>
    simp only [Prod.mk.injEq, Except.ok.injEq] at h
    obtain ⟨hitems, hst, hlog⟩ := h
    subst hitems
    subst hst
    refine ⟨rfl, ?_, ?_⟩
    · intro i hi
      exact bucketFiltered_mem i (sourceFiltered_sub i hi)
    · intro ts' heq
      rw [htags] at heq
      cases heq
  case _ ts htags =>
    split at h
    case isTrue hemp =>
      simp only [Prod.mk.injEq, Except.ok.injEq] at h
      obtain ⟨hitems, hst, hlog⟩ := h
      subst hitems
      subst hst
      refine ⟨rfl, ?_, ?_⟩
      · intro i hi
        exact bucketFiltered_mem i (sourceFiltered_sub i hi)
      · intro ts' heq hne
        rw [htags] at heq
        obtain rfl : ts = ts' := by injection heq
        exact absurd (List.isEmpty_iff.mp hemp) hne
    case isFalse hemp =>
      rcases hf : filterExcept
          (tagFilterPred (getSourceTags net baseUrl st).1 ts)
          (sourceFiltered p (bucketFiltered p feed)) with e | items2 <;>
        rw [hf] at h
      · simp only [Prod.mk.injEq] at h
        cases h.1
      · simp only [Prod.mk.injEq, Except.ok.injEq] at h
        obtain ⟨hitems, hst, hlog⟩ := h
        subst hitems
        subst hst
        refine ⟨getSourceTags_cursors net baseUrl st, ?_, ?_⟩
        · intro i hi
          obtain ⟨hm, _⟩ := filterExcept_mem hf i hi
          exact bucketFiltered_mem i (sourceFiltered_sub i hm)
        · intro ts' heq hne
          rw [htags] at heq
          obtain rfl : ts = ts' := by injection heq
          exact ⟨rfl, fun i hi => (filterExcept_mem hf i hi).2⟩

theorem lookupField_setAssoc_self (l : List (String × Json)) (k : String)
    (v : Json) : lookupField (setAssoc l k v) k = some v := by
  induction l with
  | nil => simp [setAssoc, lookupField]
  | cons p rest ih =>
    obtain ⟨k', v'⟩ := p
    unfold setAssoc
    by_cases hk : k' = k
    · rw [if_pos hk]
      simp [lookupField]
    · rw [if_neg hk]
      unfold lookupField
      rw [if_neg hk]
      exact ih

theorem filterStep_state_cursors (net : Network) (baseUrl : String)
    (st : ClientState) (p : PollParams) (feed : Feed) :
    (filterStep net baseUrl st p feed).2.1.cursors = st.cursors := by
  unfold filterStep
  split
  · rfl
  split
  · rfl
  split <;> exact getSourceTags_cursors net baseUrl st

/-- Inversion of a successful `pollFeed`: either the unchanged-cursor fast
path fired (no items, state untouched) or the result is that of the
filtering step on the fetched feed. -/
theorem pollFeed_ok_inversion {net : Network} {baseUrl : String}
    {st : ClientState} {p : PollParams} {items : List FeedItem}
    {st' : ClientState} {log : List String}
    (h : pollFeed net baseUrl st p = (.ok items, st', log)) :
    (items = [] ∧ st' = st) ∨
    ∃ st1 feed lg, filterStep net baseUrl st1 p feed = (.ok items, st', lg) := by
  unfold pollFeed at h
  rcases hfe : net.fetch p.headUrl with e | hd <;> rw [hfe] at h <;> dsimp only at h
  · simp only [Prod.mk.injEq] at h
    cases h.1
  rcases hp : parseHead hd with e | head <;> rw [hp] at h <;> dsimp only at h
  · simp only [Prod.mk.injEq] at h
    cases h.1
  split at h
  · simp only [Prod.mk.injEq, Except.ok.injEq] at h
    exact Or.inl ⟨h.1.symm, h.2.1.symm⟩
  rcases hl : net.fetch p.latestUrl with e | fd <;> rw [hl] at h <;> dsimp only at h
  · simp only [Prod.mk.injEq] at h
    cases h.1
  rcases hpf : parseFeed fd with e | feed <;> rw [hpf] at h <;> dsimp only at h
  · simp only [Prod.mk.injEq] at h
    cases h.1
  rcases hF : filterStep net baseUrl
      (if jsTruthy feed.cursor = true then
        { st with cursors := setAssoc st.cursors p.cursorKey feed.cursor }
      else st) p feed with ⟨r1, r2, r3⟩
  rw [hF] at h
  dsimp only at h
  simp only [Prod.mk.injEq] at h
  obtain ⟨h1, h2, h3⟩ := h
  subst h1
  subst h2
  exact Or.inr ⟨_, feed, r3, hF⟩

/-- The set insertion of `discoverSources` keeps the accumulator free of
SameValueZero duplicates. -/
theorem setAdd_distinct {l : List Json} {x : Json}
    (h : l.Pairwise (fun a b => jsStrictEq a b = false)) :
    (setAdd l x).Pairwise (fun a b => jsStrictEq a b = false) := by
  unfold setAdd
  split
  · exact h
  case isFalse hany =>
    rw [List.pairwise_append]
    refine ⟨h, List.pairwise_singleton _ _, ?_⟩
    intro a ha b hb
    obtain rfl : b = x := by simpa using hb
    by_contra hc
    apply hany
    rw [List.any_eq_true]
    exact ⟨a, ha, by simpa using hc⟩

theorem foldl_setAdd_distinct {l : List Json} {acc : List Json}
    (h : acc.Pairwise (fun a b => jsStrictEq a b = false)) :
    (l.foldl setAdd acc).Pairwise (fun a b => jsStrictEq a b = false) := by
  induction l generalizing acc with
  | nil => exact h
  | cons x xs ih => exact ih (setAdd_distinct h)

theorem addEntrySources_distinct {acc : List Json} {sources : Json}
    (h : acc.Pairwise (fun a b => jsStrictEq a b = false)) :
    (addEntrySources acc sources).Pairwise
      (fun a b => jsStrictEq a b = false) := by
  unfold addEntrySources
  split
  · exact foldl_setAdd_distinct h
  · exact h

theorem collectSourceIds_distinct {depsObj : Json} {deps : List String}
    {acc : List Json}
    (h : acc.Pairwise (fun a b => jsStrictEq a b = false)) :
    (collectSourceIds depsObj deps acc).Pairwise
      (fun a b => jsStrictEq a b = false) := by
  induction deps generalizing acc with
  | nil => exact h
  | cons dep rest ih =>
    unfold collectSourceIds
    dsimp only
    split
    · exact ih (addEntrySources_distinct h)
    · exact ih h

-- ── Claim theorems ──

/-- Claim C4: for every JSON document accepted by the feed decoder, the
combined items sequence equals the concatenation of the four decoded buckets
in the fixed order new, updated, removed, flagged, and every item carries
the bucket membership of the bucket array it came from. -/
theorem claim4_feed_items_bucket_concat {data : Json} {feed : Feed}
    (h : parseFeed data = .ok feed) :
    feed.items = feed.new ++ feed.updated ++ feed.removed ++ feed.flagged ∧
    (∀ i ∈ feed.new, i.bucket = .new) ∧
    (∀ i ∈ feed.updated, i.bucket = .updated) ∧
    (∀ i ∈ feed.removed, i.bucket = .removed) ∧
    (∀ i ∈ feed.flagged, i.bucket = .flagged) := by
  obtain ⟨hcat, ⟨nR, hn⟩, ⟨uR, hu⟩, ⟨rR, hr⟩, ⟨fR, hf⟩⟩ := parseFeed_shape h
  exact ⟨hcat, parseItems_bucket hn, parseItems_bucket hu,
    parseItems_bucket hr, parseItems_bucket hf⟩

theorem parseHead_total {d : Json} (hd : d.isNull = false) :
    ∃ h, parseHead d = .ok h := by
  unfold parseHead
  rw [hd]
  simp only [Bool.false_eq_true, if_false]
  exact ⟨_, rfl⟩

theorem parseSourceInfo_total {d : Json} (hd : d.isNull = false) :
    ∃ s, parseSourceInfo d = .ok s := by
  unfold parseSourceInfo
  rw [hd]
  simp only [Bool.false_eq_true, if_false]
  exact ⟨_, rfl⟩

theorem parseHealthCheck_total {d : Json} (hd : d.isNull = false) :
    ∃ c, parseHealthCheck d = .ok c := by
  unfold parseHealthCheck
  rw [hd]
  simp only [Bool.false_eq_true, if_false]
  exact ⟨_, rfl⟩

theorem parseFeed_total {d : Json} (hd : d.isNull = false)
    (hb : ∀ k ∈ (["new", "updated", "removed", "flagged"] : List String),
      ∃ xs, arrayElems (jsGet (feedBuckets d) k) = .ok xs ∧
        ∀ x ∈ xs, x.isNull = false) :
    ∃ f, parseFeed d = .ok f := by
  obtain ⟨nR, hn, hnn⟩ := hb "new" (by simp)
  obtain ⟨uR, hu, huu⟩ := hb "updated" (by simp)
  obtain ⟨rR, hr, hrr⟩ := hb "removed" (by simp)
  obtain ⟨fR, hf, hff⟩ := hb "flagged" (by simp)
  obtain ⟨nI, hnI⟩ := parseItems_total (b := .new) hnn
  obtain ⟨uI, huI⟩ := parseItems_total (b := .updated) huu
  obtain ⟨rI, hrI⟩ := parseItems_total (b := .removed) hrr
  obtain ⟨fI, hfI⟩ := parseItems_total (b := .flagged) hff
  unfold parseFeed
  rw [hd]
  simp only [Bool.false_eq_true, if_false]
  rw [hn]
  simp only [bind, Except.bind]
  rw [hnI, hu]
  simp only [bind, Except.bind]
  rw [huI, hr]
  simp only [bind, Except.bind]
  rw [hrI, hf]
  simp only [bind, Except.bind]
  rw [hfI]
  exact ⟨_, rfl⟩

/-- Witness for claim C4 at the concrete scenario with buckets
new = [A], updated = [B], removed = [C], flagged = [D]: the combined
sequence is exactly [A, B, C, D] and each item keeps its bucket. -/
theorem claim4_witness :
    bucketScenarioFeed.items = bucketScenarioFeed.new ++
      bucketScenarioFeed.updated ++ bucketScenarioFeed.removed ++
      bucketScenarioFeed.flagged ∧
    (∀ i ∈ bucketScenarioFeed.new, i.bucket = .new) ∧
    (∀ i ∈ bucketScenarioFeed.updated, i.bucket = .updated) ∧
    (∀ i ∈ bucketScenarioFeed.removed, i.bucket = .removed) ∧
    (∀ i ∈ bucketScenarioFeed.flagged, i.bucket = .flagged) :=
  claim4_feed_items_bucket_concat
    (show parseFeed bucketScenarioDoc = .ok bucketScenarioFeed from rfl)

/-- Counterexample to claim C5 as stated: the feed decoder is not total on
JSON-like input.  On the object document with buckets.new = 5 (a truthy
non-array) the code calls `.map` on the number and raises a TypeError. -/
theorem claim5_counterexample :
    parseFeed badBucketsDoc = .error "TypeError: map is not a function" := rfl

/-- Claim C5, amended: decoding the empty document for each document kind
yields the documented defaults (Head.ttlSec = 60, counts all zero,
cursor = "", allClear = false, Feed.items = empty, and so on), and the
decoders never raise on any non-nullish input, except that the feed decoder
additionally requires each present bucket field to be an array (or falsy)
of non-null entries, since a truthy non-array bucket field or a null bucket
entry makes the JavaScript throw. -/
theorem claim5_amended_decoders :
    parseHead (.obj []) = .ok emptyHead ∧
    parseFeed (.obj []) = .ok emptyFeed ∧
    parseFeedItem (.obj []) .new = .ok emptyItem ∧
    parseSourceInfo (.obj []) = .ok emptySourceInfo ∧
    parseHealthCheck (.obj []) = .ok emptyHealthCheck ∧
    (∀ d : Json, d.isNull = false → ∃ h, parseHead d = .ok h) ∧
    (∀ (d : Json) (b : Bucket), d.isNull = false →
      ∃ i, parseFeedItem d b = .ok i) ∧
    (∀ d : Json, d.isNull = false → ∃ s, parseSourceInfo d = .ok s) ∧
    (∀ d : Json, d.isNull = false → ∃ c, parseHealthCheck d = .ok c) ∧
    (∀ d : Json, d.isNull = false →
      (∀ k ∈ (["new", "updated", "removed", "flagged"] : List String),
        ∃ xs, arrayElems (jsGet (feedBuckets d) k) = .ok xs ∧
          ∀ x ∈ xs, x.isNull = false) →
      ∃ f, parseFeed d = .ok f) :=
  ⟨rfl, rfl, rfl, rfl, rfl,
    fun _ hd => parseHead_total hd,
    fun _ _ hd => parseFeedItem_total hd,
    fun _ hd => parseSourceInfo_total hd,
    fun _ hd => parseHealthCheck_total hd,
    fun _ hd hb => parseFeed_total hd hb⟩

/-- Witness for amended claim C5: the feed-decoder totality clause applied
to a concrete non-empty document. -/
theorem claim5_witness :
    ∃ f, parseFeed (Json.obj [("cursor", Json.str "c")]) = .ok f :=
  claim5_amended_decoders.2.2.2.2.2.2.2.2.2
    (Json.obj [("cursor", Json.str "c")]) rfl
    (by
      intro k hk
      refine ⟨[], ?_, ?_⟩
      · fin_cases hk <;> rfl
      · intro x hx
        cases hx)

/-- Counterexample to claim C6 as stated: an item whose
signals.suggested_action is present but falsy (the empty string) decodes
with suggestedAction = null, which differs from the present field value. -/
theorem claim6_counterexample :
    (parseFeedItem falsyActionDoc .new).toOption.map
      (fun i => (jsGet i.signals "suggested_action", i.suggestedAction)) =
      some (Json.str "", Json.null) ∧ Json.str "" ≠ Json.null :=
  ⟨rfl, fun h => Json.noConfusion h⟩

/-- Claim C6, amended: for every decoded feed item, suggestedAction equals
signals.suggested_action whenever that field is present with a truthy value
(every real action code is a non-empty string), and is null whenever the
field is absent or falsy; the projection is never computed independently of
the signals bundle. -/
theorem claim6_suggested_action_projection {d : Json} {b : Bucket}
    {i : FeedItem} (h : parseFeedItem d b = .ok i) :
    (jsTruthy (jsGet i.signals "suggested_action") = true →
      i.suggestedAction = jsGet i.signals "suggested_action") ∧
    (jsTruthy (jsGet i.signals "suggested_action") = false →
      i.suggestedAction = .null) := by
  unfold parseFeedItem at h
  split at h
  · cases h
  · simp only [Except.ok.injEq] at h
    subst h
    dsimp only
    constructor <;> intro ht
    · exact jsOr_pos ht
    · exact jsOr_neg ht

/-- Witness for amended claim C6 at a concrete item carrying the action
code PATCH_IMMEDIATELY. -/
theorem claim6_witness :
    (jsTruthy (jsGet actionItem.signals "suggested_action") = true →
      actionItem.suggestedAction = jsGet actionItem.signals "suggested_action") ∧
    (jsTruthy (jsGet actionItem.signals "suggested_action") = false →
      actionItem.suggestedAction = .null) :=
  claim6_suggested_action_projection
    (show parseFeedItem actionDoc .new = .ok actionItem from rfl)

/-- Counterexample to claim C1 as stated: with a stored cursor that exists
and is bitwise equal to the freshly fetched Head cursor — both the empty
string — the poll does not return early: the full-feed endpoint is
requested, three items come back, and the stored cursor is overwritten. -/
theorem claim1_counterexample :
    lookupField emptyCursorState.cursors "global" = some (.str "") ∧
    (parseHead (Json.obj [])).toOption.map Head.cursor = some (.str "") ∧
    (pollFeed noCursorNet demoBase emptyCursorState demoParams).2.2 =
      ["https://diffdelta.io/diff/head.json",
        "https://diffdelta.io/diff/latest.json"] ∧
    ((pollFeed noCursorNet demoBase emptyCursorState demoParams).1.toOption.map
      List.length) = some 3 ∧
    (pollFeed noCursorNet demoBase emptyCursorState demoParams).2.1.cursors =
      [("global", Json.str "c2")] :=
  ⟨rfl, rfl, rfl, rfl, rfl⟩

/-- Claim C1, amended: the unchanged-cursor fast path requires the stored
cursor to be non-empty.  If a stored cursor exists for the feed key, is a
non-empty string, and is bitwise equal to the freshly fetched Head cursor,
then pollFeed returns the empty item sequence, requests only the head
endpoint, and leaves the whole client state (in particular the stored
cursor) unchanged. -/
theorem claim1_nonempty_unchanged_cursor_fast_path
    (net : Network) (baseUrl : String) (st : ClientState) (p : PollParams)
    (hd : Json) (head : Head) (c : String)
    (hfetch : net.fetch p.headUrl = .ok hd)
    (hparse : parseHead hd = .ok head)
    (hstored : lookupField st.cursors p.cursorKey = some (.str c))
    (hne : c ≠ "")
    (hcur : head.cursor = .str c) :
    pollFeed net baseUrl st p = (.ok [], st, [p.headUrl]) := by
  unfold pollFeed
  rw [hfetch]
  dsimp only
  rw [hparse]
  dsimp only
  rw [hstored]
  have hc : cursorUnchanged ((some (Json.str c)).getD .null) head.cursor = true := by
    simp [cursorUnchanged, jsTruthy, jsStrictEq, hcur, hne]
  simp only [Option.getD_some] at hc ⊢
  simp [hc]

/-- Witness for amended claim C1: a stored cursor c1 matching the served
head document short-circuits the poll. -/
theorem claim1_witness :
    pollFeed demoNet demoBase matchedState demoParams =
      (.ok [], matchedState, ["https://diffdelta.io/diff/head.json"]) :=
  claim1_nonempty_unchanged_cursor_fast_path demoNet demoBase matchedState
    demoParams headDemoDoc demoHead "c1" rfl rfl rfl (by decide) rfl

/-- Claim C2: after a poll that fetched the full feed (the fast path did not
fire), a truthy feed cursor is stored under the feed key — even when it
differs from the head cursor that triggered the fetch — and an empty feed
cursor leaves the stored cursors untouched.  The conclusion is about the
state component, which survives even if a later filtering step throws. -/
theorem claim2_feed_cursor_authoritative
    (net : Network) (baseUrl : String) (st : ClientState) (p : PollParams)
    (hd : Json) (head : Head) (fd : Json) (feed : Feed)
    (hfetch : net.fetch p.headUrl = .ok hd)
    (hparse : parseHead hd = .ok head)
    (hmiss : cursorUnchanged ((lookupField st.cursors p.cursorKey).getD .null)
      head.cursor = false)
    (hlatest : net.fetch p.latestUrl = .ok fd)
    (hfeed : parseFeed fd = .ok feed) :
    (jsTruthy feed.cursor = true →
      lookupField (pollFeed net baseUrl st p).2.1.cursors p.cursorKey =
        some feed.cursor) ∧
    (feed.cursor = .str "" →
      (pollFeed net baseUrl st p).2.1.cursors = st.cursors) := by
  unfold pollFeed
  rw [hfetch]
  dsimp only
  rw [hparse]
  dsimp only
  rw [hmiss, if_neg (by simp), hlatest]
  dsimp only
  rw [hfeed]
  dsimp only
  constructor
  · intro htruthy
    rw [filterStep_state_cursors, if_pos htruthy]
    exact lookupField_setAssoc_self st.cursors p.cursorKey feed.cursor
  · intro hempty
    have hfalse : jsTruthy feed.cursor = false := by rw [hempty]; rfl
    rw [filterStep_state_cursors, if_neg (by simp [hfalse])]

/-- Witness for claim C2: polling the demo server from a fresh state stores
the feed cursor c2, not the head cursor c1. -/
theorem claim2_witness :
    (jsTruthy demoFeed.cursor = true →
      lookupField (pollFeed demoNet demoBase freshState demoParams).2.1.cursors
        "global" = some demoFeed.cursor) ∧
    (demoFeed.cursor = .str "" →
      (pollFeed demoNet demoBase freshState demoParams).2.1.cursors =
        freshState.cursors) :=
  claim2_feed_cursor_authoritative demoNet demoBase freshState demoParams
    headDemoDoc demoHead feedDemoDoc demoFeed rfl rfl rfl rfl rfl

/-- Claim C3: every item returned by poll has its bucket in the requested
bucket set, whose default is the list new, updated, flagged; with the
default set a removed item is never returned and only the three default
buckets appear. -/
theorem claim3_bucket_filter_closure {net : Network} {baseUrl : String}
    {st : ClientState} {opts : PollOptions} {items : List FeedItem}
    {st' : ClientState} {log : List String}
    (h : poll net baseUrl st opts = (.ok items, st', log)) :
    (∀ i ∈ items,
      (opts.buckets.getD defaultBuckets).contains i.bucket.label = true) ∧
    (opts.buckets = none → ∀ i ∈ items,
      (i.bucket = .new ∨ i.bucket = .updated ∨ i.bucket = .flagged) ∧
      i.bucket ≠ .removed) := by
  unfold poll at h
  have hmain : ∀ i ∈ items,
      (opts.buckets.getD defaultBuckets).contains i.bucket.label = true := by
    rcases pollFeed_ok_inversion h with ⟨hnil, _⟩ | ⟨st1, feed, lg, hF⟩
    · subst hnil
      intro i hi
      cases hi
    · intro i hi
      exact ((filterStep_inversion hF).2.1 i hi).2
  refine ⟨hmain, ?_⟩
  intro hnone i hi
  have hc := hmain i hi
  rw [hnone] at hc
  cases hb : i.bucket <;> rw [hb] at hc <;>
    simp [Bucket.label, defaultBuckets, Option.getD] at hc <;> simp

/-- Witness for claim C3: the default poll on the demo server returns the
new item A, the updated item B and the flagged item D, and excludes the
removed item C. -/
theorem claim3_witness :
    (∀ i ∈ [itemA, idOnlyItem "B" .updated, idOnlyItem "D" .flagged],
      ((({} : PollOptions).buckets.getD defaultBuckets).contains
        i.bucket.label) = true) ∧
    (({} : PollOptions).buckets = none →
      ∀ i ∈ [itemA, idOnlyItem "B" .updated, idOnlyItem "D" .flagged],
        (i.bucket = .new ∨ i.bucket = .updated ∨ i.bucket = .flagged) ∧
        i.bucket ≠ .removed) :=
  claim3_bucket_filter_closure
    (show poll demoNet demoBase freshState {} =
      (.ok [itemA, idOnlyItem "B" .updated, idOnlyItem "D" .flagged],
        ⟨[("global", .str "c2")], none⟩,
        ["https://diffdelta.io/diff/head.json",
          "https://diffdelta.io/diff/latest.json"]) from rfl)

/-- Counterexample to claim C7 as stated: when a source carries the string
tags value insecurity (a truthy non-array kept by `parseSourceInfo`), the
JavaScript call becomes the substring test
`"insecurity".includes("security")`, which is true, so the poll filtered on
the tag security returns item A although its source has no tag in common
with the filter: the resolved entry is the lone string insecurity, which
differs from the requested tag. -/
theorem claim7_counterexample :
    (pollFeed stringTagsNet demoBase freshState securityParams).1 =
      .ok [itemA] ∧
    securityParams.tags = some ["security"] ∧
    (pollFeed stringTagsNet demoBase freshState securityParams).2.1.sourceTagsCache =
      some [("sx", Json.str "insecurity")] ∧
    jsToStr itemA.source = "sx" ∧
    lookupField [("sx", Json.str "insecurity")] "sx" =
      some (Json.str "insecurity") ∧
    jsStrictEq (Json.str "insecurity") (Json.str "security") = false ∧
    jsIncludes "insecurity" "security" = true :=
  ⟨rfl, rfl, rfl, rfl, rfl, rfl, rfl⟩

/-- Claim C7, amended: under a non-empty tag filter, every item a
successful poll returns has a source present in the resolved tag map, and
its entry matches the filter under the JavaScript includes semantics: an
array entry shares at least one exact tag with the filter, while a string
entry contains some requested tag as a substring (so a substring
false-positive can return an item with no exact tag in common).  When the
resolved tag map is empty — in particular after a failed source-list
fetch — no item is returned. -/
theorem claim7_tag_filter_includes {net : Network} {baseUrl : String}
    {st : ClientState} {p : PollParams} {ts : List String}
    {items : List FeedItem} {st' : ClientState} {log : List String}
    (h : pollFeed net baseUrl st p = (.ok items, st', log))
    (htags : p.tags = some ts) (hne : ts ≠ []) :
    (∀ i ∈ items, ∃ m, st'.sourceTagsCache = some m ∧
      (lookupField m (jsToStr i.source)).isSome = true ∧
      ((∃ xs, jsOr ((lookupField m (jsToStr i.source)).getD .null) (.arr []) =
          .arr xs ∧
        ts.any (fun t => xs.any (fun x => jsStrictEq x (.str t))) = true) ∨
       (∃ s, jsOr ((lookupField m (jsToStr i.source)).getD .null) (.arr []) =
          .str s ∧
        ts.any (fun t => jsIncludes s t) = true))) ∧
    (st'.sourceTagsCache = some [] → items = []) := by
  rcases pollFeed_ok_inversion h with ⟨hnil, hstEq⟩ | ⟨st1, feed, lg, hF⟩
  · subst hnil
    exact ⟨fun i hi => absurd hi (by simp), fun _ => rfl⟩
  · obtain ⟨hst', hall⟩ := (filterStep_inversion hF).2.2 ts htags hne
    have hcache : st'.sourceTagsCache =
        some (getSourceTags net baseUrl st1).1 := by
      rw [hst']
      exact getSourceTags_cache net baseUrl st1
    constructor
    · intro i hi
      obtain ⟨hsome, hmatch⟩ := tagFilterPred_true hne (hall i hi)
      exact ⟨(getSourceTags net baseUrl st1).1, hcache, hsome, hmatch⟩
    · intro hnilcache
      have hmeq : (getSourceTags net baseUrl st1).1 = [] := by
        rw [hcache] at hnilcache
        injection hnilcache
      rw [List.eq_nil_iff_forall_not_mem]
      intro i hi
      obtain ⟨hsome, _⟩ := tagFilterPred_true hne (hall i hi)
      rw [hmeq] at hsome
      simp [lookupField] at hsome

/-- Witness for amended claim C7: a poll filtered on the security tag over
the demo server returns only item A, whose source sx resolves to an array
entry carrying exactly that tag. -/
theorem claim7_witness :
    (∀ i ∈ [itemA], ∃ m, taggedState.sourceTagsCache = some m ∧
      (lookupField m (jsToStr i.source)).isSome = true ∧
      ((∃ xs, jsOr ((lookupField m (jsToStr i.source)).getD .null) (.arr []) =
          .arr xs ∧
        (["security"] : List String).any
          (fun t => xs.any (fun x => jsStrictEq x (.str t))) = true) ∨
       (∃ s, jsOr ((lookupField m (jsToStr i.source)).getD .null) (.arr []) =
          .str s ∧
        (["security"] : List String).any (fun t => jsIncludes s t) = true))) ∧
    (taggedState.sourceTagsCache = some [] → [itemA] = []) :=
  claim7_tag_filter_includes
    (show pollFeed demoNet demoBase freshState securityParams =
      (.ok [itemA], taggedState,
        ["https://diffdelta.io/diff/head.json",
          "https://diffdelta.io/diff/latest.json",
          "https://diffdelta.io/diff/sources.json"]) from rfl)
    rfl (by simp)

/-- The result list of `discoverSources` is free of SameValueZero
duplicates. -/
theorem discoverSources_distinct {net : Network} {baseUrl : String}
    {deps : List String} {r : List Json}
    (h : discoverSources net baseUrl deps = .ok r) :
    r.Pairwise (fun a b => jsStrictEq a b = false) := by
  unfold discoverSources at h
  rcases hf : net.fetch (baseUrl ++ "/diff/stacks.json") with e | data <;>
    rw [hf] at h <;> simp only [bind, Except.bind] at h
  · cases h
  cases hnull : data.isNull <;> rw [hnull] at h
  · rw [if_neg (by simp)] at h
    simp only [bind, Except.bind, Except.ok.injEq] at h
    subst h
    exact collectSourceIds_distinct List.Pairwise.nil
  · rw [if_pos rfl] at h
    cases h

/-- Claim C8: discoverSources lowercases each dependency name before
lookup, unions all mapped source ids into one duplicate-free result,
silently ignores unknown names, and accepts both the modern object-valued
shape and the legacy array-valued shape.  The concrete scenario from the
claim (openai maps to s1 and s2, langchain to s2 and s3, unknownlib is
absent) yields exactly the set s1, s2, s3. -/
theorem claim8_discover_sources_union :
    (∀ (net : Network) (baseUrl : String) (deps : List String) (r : List Json),
      discoverSources net baseUrl deps = .ok r →
      r.Pairwise (fun a b => jsStrictEq a b = false)) ∧
    discoverSources stacksNetModern demoBase
      ["openai", "langchain", "unknownlib"] =
      .ok [.str "s1", .str "s2", .str "s3"] ∧
    discoverSources stacksNetModern demoBase ["OpenAI", "LangChain"] =
      .ok [.str "s1", .str "s2", .str "s3"] ∧
    discoverSources stacksNetLegacy demoBase
      ["openai", "langchain", "unknownlib"] =
      .ok [.str "s1", .str "s2", .str "s3"] :=
  ⟨fun _ _ _ _ h => discoverSources_distinct h, rfl, rfl, rfl⟩

/-- Witness for claim C8: the duplicate-freedom clause applied to the
modern-shape scenario. -/
theorem claim8_witness :
    List.Pairwise (fun a b => jsStrictEq a b = false)
      [Json.str "s1", Json.str "s2", Json.str "s3"] :=
  claim8_discover_sources_union.1 stacksNetModern demoBase
    ["openai", "langchain", "unknownlib"] [.str "s1", .str "s2", .str "s3"] rfl

/-- Counterexample to claim C9 as stated: a cursor file holding the JSON
array [c1] is valid, non-object JSON, yet loading does not yield an empty
store: JavaScript typeof reports object for arrays, so the array is kept
and its index 0 becomes a key. -/
theorem claim9_counterexample :
    loadCursors (.contents (.ok (.arr [.str "c1"]))) =
      [("0", Json.str "c1")] ∧
    [("0", Json.str "c1")] ≠ ([] : List (String × Json)) :=
  ⟨rfl, by simp⟩

/-- Claim C9, amended: loading the cursor store never throws and yields the
empty store when the file is absent, unreadable, or holds corrupted JSON or
a JSON value that is neither an object nor an array; a JSON array passes
the JavaScript typeof object guard and is kept as the store.  Saving after
a set never surfaces an error whether or not the filesystem write
succeeds. -/
theorem claim9_cursor_store_robust :
    loadCursors .absent = [] ∧
    loadCursors .unreadable = [] ∧
    (∀ e, loadCursors (.contents (.error e)) = []) ∧
    (∀ v : Json, isJsObjectLike v = false →
      loadCursors (.contents (.ok v)) = []) ∧
    (∀ (cs : List (String × Json)) (k : String) (c : Json) (w : Bool),
      cursorStoreSet cs k c w = (setAssoc cs k c, none)) :=
  ⟨rfl, rfl, fun _ => rfl,
    by
      intro v hv
      simp only [loadCursors]
      rw [hv]
      simp,
    by
      intro cs k c w
      cases w <;> rfl⟩

/-- Witness for amended claim C9: a cursor file holding a bare JSON string
loads as the empty store. -/
theorem claim9_witness :
    loadCursors (.contents (.ok (.str "oops"))) = [] :=
  claim9_cursor_store_robust.2.2.2.1 (.str "oops") rfl

/-- Claim C10: when the stored cursor for the feed key is absent or the
empty string, the full-feed endpoint is requested — even when the fetched
head cursor is equally empty. -/
theorem claim10_empty_stored_cursor_fetches
    (net : Network) (baseUrl : String) (st : ClientState) (p : PollParams)
    (hd : Json) (head : Head)
    (hfetch : net.fetch p.headUrl = .ok hd)
    (hparse : parseHead hd = .ok head)
    (hstored : lookupField st.cursors p.cursorKey = none ∨
      lookupField st.cursors p.cursorKey = some (.str "")) :
    p.latestUrl ∈ (pollFeed net baseUrl st p).2.2 := by
  unfold pollFeed
  rw [hfetch]
  dsimp only
  rw [hparse]
  dsimp only
  have hc : cursorUnchanged ((lookupField st.cursors p.cursorKey).getD .null)
      head.cursor = false := by
    rcases hstored with h | h <;> rw [h] <;>
      simp [cursorUnchanged, jsTruthy, Option.getD]
  rw [hc, if_neg (by simp)]
  rcases hl : net.fetch p.latestUrl with e | fd <;> dsimp only
  · simp
  · rcases hp : parseFeed fd with e | feed <;> dsimp only
    · simp
    · simp

/-- Witness for claim C10 at the particular input the claim singles out:
the stored cursor and the head cursor are both the empty string (and so
bitwise equal), yet the full-feed URL is requested. -/
theorem claim10_witness :
    demoParams.latestUrl ∈
      (pollFeed noCursorNet demoBase emptyCursorState demoParams).2.2 :=
  claim10_empty_stored_cursor_fetches noCursorNet demoBase emptyCursorState
    demoParams (.obj []) emptyHead rfl rfl (Or.inr rfl)

end DiffDelta
